import Mathlib

/-!
Shallow embedding of the persistence-and-aggregation layer of the
smart-house repository (`smarthouse/persistence.py`), together with
theorems settling the specification claims about it.

Database tables are modelled as lists of rows; SQLite `REAL`/`INTEGER`
values are modelled as exact rationals (`ℚ`), `TEXT` as `String`, and
nullable columns as `Option`.  Fallible Python code is modelled with
`Except`.  Timestamps are modelled as their textual components
(date `"YYYY-MM-DD"`, hour `"HH"`, remainder `":MM:SS"`), because the
source compares raw timestamp strings lexicographically (SQLite text
comparison) and extracts the date/hour parts with `strftime`/`date`.
-/

namespace PartC

instance {ε α : Type} [DecidableEq ε] [DecidableEq α] : DecidableEq (Except ε α) := fun
  | Except.error e, Except.error f => decidable_of_iff (e = f) (by simp)
  | Except.error _, Except.ok _ => isFalse (by simp)
  | Except.ok _, Except.error _ => isFalse (by simp)
  | Except.ok a, Except.ok b => decidable_of_iff (a = b) (by simp)

/-- Numeric database value (SQLite numeric affinity), modelled exactly. -/
abbrev Val := ℚ

/-- A timestamp `"YYYY-MM-DD HH:MM:SS"` split into the components the
source accesses: `strftime('%Y-%m-%d', ts)`/`date(ts)` is `date`,
`strftime('%H', ts)` is `hour`, and the raw string is the concatenation. -/
structure Timestamp where
  date : String
  hour : String
  rest : String
deriving DecidableEq

/-- The raw stored timestamp string, as SQLite compares it. -/
def tsString (t : Timestamp) : String :=
  t.date ++ " " ++ t.hour ++ t.rest

/-- Byte-wise (codepoint-wise) lexicographic strict order on character
lists, as SQLite's default BINARY collation compares text. -/
def charListLt : List Char → List Char → Bool
  | [], [] => false
  | [], _ :: _ => true
  | _ :: _, [] => false
  | a :: as, b :: bs =>
    if a.toNat < b.toNat then true
    else if b.toNat < a.toNat then false
    else charListLt as bs

/-- SQLite `<=` on TEXT values (BINARY collation). -/
def sqliteLe (a b : String) : Bool :=
  !(charListLt b.data a.data)

/-- A row of the `rooms` relation: `(id, floor, area, name)`. -/
structure RoomRow where
  id : Int
  floor : Int
  area : Val
  name : String
deriving DecidableEq

/-- A row of the `devices` relation:
`(id, room, kind, category, supplier, product, state)`; the nullable
`state` column is the one written by `update_actuator_state`. -/
structure DeviceRow where
  id : String
  room : Int
  kind : String
  category : String
  supplier : String
  product : String
  state : Option Val
deriving DecidableEq

/-- A row of the `states` relation: `(device, state)`, nullable state. -/
structure StateRow where
  device : String
  state : Option Val
deriving DecidableEq

/-- A row of the `measurements` relation: `(device, value, unit, ts)`. -/
structure MeasurementRow where
  device : String
  value : Val
  unit : String
  ts : Timestamp
deriving DecidableEq

/-- The database state the repository operates on. -/
structure DB where
  rooms : List RoomRow
  devices : List DeviceRow
  states : List StateRow
  measurements : List MeasurementRow
deriving DecidableEq

/-- Modelled from the spec: the three-state actuator state machine of
the domain model (`domain.py` is not part of the given sources):
`Off`, `On`, `OnWithLevel(level)`; `turn_off()` yields `off`,
`turn_on()` yields `on`, `turn_on(level)` yields `onWithLevel level`. -/
inductive ActuatorState where
  | off : ActuatorState
  | on : ActuatorState
  | onWithLevel (level : Val) : ActuatorState
deriving DecidableEq

/-- Modelled from the spec: the closed set of device variants of the
domain model: `Sensor`, `Actuator`, `ActuatorWithSensor`. -/
inductive DeviceVariant where
  | sensor : DeviceVariant
  | actuator : DeviceVariant
  | actuatorWithSensor : DeviceVariant
deriving DecidableEq

/-- Modelled from the spec: a device is actuator-capable when it is an
`Actuator` or an `ActuatorWithSensor` (the `isinstance(dev, Actuator)`
test of the source, with `ActuatorWithSensor` an actuator variant). -/
def actuatorCapable : DeviceVariant → Bool
  | .sensor => false
  | .actuator => true
  | .actuatorWithSensor => true

/-- A room as registered into the in-memory graph during loading:
its storage id, the level of the floor it was attached to, area, name. -/
structure LoadedRoom where
  dbId : Int
  floorLevel : Int
  area : Val
  name : String
deriving DecidableEq

/-- A device as registered into the in-memory graph during loading. -/
structure LoadedDevice where
  id : String
  product : String
  supplier : String
  kind : String
  variant : DeviceVariant
  roomDbId : Int
  state : Option ActuatorState
deriving DecidableEq

/-- The in-memory `SmartHouse` graph produced by the deep load:
floor levels in registration order, rooms and devices in registration
order (containment is by `floorLevel` / `roomDbId`). -/
structure House where
  floors : List Int
  rooms : List LoadedRoom
  devices : List LoadedDevice
deriving DecidableEq

/-- The ways `load_smarthouse_deep` can fail:
`emptyStructure` is the failure at `range(0, no_floors)` when
`MAX(floor)` over an empty `rooms` relation is NULL (the spec's
`EmptyStructureError`); `floorIndex i` is the `IndexError` when the
Python index `i` into the floors list is out of range;
`danglingRef k` is the `KeyError` when a device row references a room
id `k` absent from the room index (the spec's `DanglingReferenceError`). -/
inductive LoadError where
  | emptyStructure : LoadError
  | floorIndex (i : Int) : LoadError
  | danglingRef (roomId : Int) : LoadError
deriving DecidableEq

/-- The failure of the humidity query: the `ValueError` raised when the
room name resolves to no stored room (the spec's `UnknownRoomError`). -/
inductive AggError where
  | unknownRoom : AggError
deriving DecidableEq

/-- `SELECT MAX(floor) FROM rooms`: NULL (`none`) on an empty relation. -/
def maxFloor (rooms : List RoomRow) : Option Int :=
  rooms.foldl
    (fun acc r =>
      match acc with
      | none => some r.floor
      | some m => some (max m r.floor))
    none

/-- Python list indexing, negative indices counting from the end;
`none` models an `IndexError`. -/
def pyIndex {α : Type} (xs : List α) (i : Int) : Option α :=
  if 0 ≤ (if i < 0 then i + xs.length else i) then
    xs.get? (if i < 0 then i + xs.length else i).toNat
  else none

/-- The floor levels registered by the loader: `register_floor(i + 1)`
for `i in range(0, no_floors)` (empty when `no_floors ≤ 0`). -/
def levelsOf (n : Int) : List Int :=
  (List.range n.toNat).map (fun i : Nat => (i : Int) + 1)

/-- Effectful map over a list in the `Except` monad, processing rows in
order and stopping at the first failure (a Python `for` loop raising). -/
def exceptMapM {ε α β : Type} (f : α → Except ε β) : List α → Except ε (List β)
  | [] => Except.ok []
  | a :: l =>
    match f a with
    | Except.error e => Except.error e
    | Except.ok b =>
      match exceptMapM f l with
      | Except.error e => Except.error e
      | Except.ok bs => Except.ok (b :: bs)

/-- One iteration of the room-creation loop:
`register_room(floors[floor - 1], area, name)` with `room.db_id = id`. -/
def loadRoom (levels : List Int) (r : RoomRow) : Except LoadError LoadedRoom :=
  match pyIndex levels (r.floor - 1) with
  | none => Except.error (LoadError.floorIndex (r.floor - 1))
  | some lvl => Except.ok ⟨r.id, lvl, r.area, r.name⟩

/-- The room-creation loop over all room rows. -/
def loadRooms (levels : List Int) (rows : List RoomRow) : Except LoadError (List LoadedRoom) :=
  exceptMapM (loadRoom levels) rows

/-- Device-variant dispatch of the deep load: `category == 'sensor'` →
`Sensor`; `category == 'actuator'` → `ActuatorWithSensor` when
`kind == 'Heat Pump'`, else `Actuator`; any other category is skipped
(`none`: no `register_device` call is made). -/
def classifyDeep (kind category : String) : Option DeviceVariant :=
  if category = "sensor" then some DeviceVariant.sensor
  else if category = "actuator" then
    if kind = "Heat Pump" then some DeviceVariant.actuatorWithSensor
    else some DeviceVariant.actuator
  else none

/-- `room_dict[key]` lookup: the dictionary is built by inserting rooms
in row order, a later insert overwriting an earlier one with the same id. -/
def dictFind (rooms : List LoadedRoom) (key : Int) : Option LoadedRoom :=
  rooms.foldl (fun acc rm => if rm.dbId = key then some rm else acc) none

/-- One iteration of the device loop: the room lookup
`room_dict[device_tuple[1]]` happens first (raising `KeyError` on a
dangling reference even for unregistered categories), then the variant
dispatch; a skipped category registers nothing. -/
def loadDevice (rooms : List LoadedRoom) (r : DeviceRow) : Except LoadError (Option LoadedDevice) :=
  match dictFind rooms r.room with
  | none => Except.error (LoadError.danglingRef r.room)
  | some rm =>
    Except.ok ((classifyDeep r.kind r.category).map
      (fun v => ⟨r.id, r.product, r.supplier, r.kind, v, rm.dbId, none⟩))

/-- The device loop over all device rows. -/
def loadDevices (rooms : List LoadedRoom) (rows : List DeviceRow) : Except LoadError (List LoadedDevice) :=
  match exceptMapM (loadDevice rooms) rows with
  | Except.error e => Except.error e
  | Except.ok os => Except.ok (os.filterMap id)

/-- The state decoding applied during the deep load: NULL → `turn_off()`,
`float(state) == 1.0` (exact) → `turn_on()`, else `turn_on(float(state))`. -/
def decodeStateVal (s : Option Val) : ActuatorState :=
  match s with
  | none => ActuatorState.off
  | some v => if v = 1 then ActuatorState.on else ActuatorState.onWithLevel v

/-- `SELECT state FROM states WHERE device = id` + `fetchone()`:
the first matching row, if any. -/
def findStateRow (states : List StateRow) (deviceId : String) : Option StateRow :=
  states.find? (fun s => s.device = deviceId)

/-- The state-restoration loop body: for an actuator-capable device with
a persisted state row, apply the decoded state; with no row the device
is left as it is (the source only logs). -/
def applyStates (states : List StateRow) (d : LoadedDevice) : LoadedDevice :=
  if actuatorCapable d.variant then
    match findStateRow states d.id with
    | none => d
    | some row => { d with state := some (decodeStateVal row.state) }
  else d

/-- `load_smarthouse_deep`: floors from `MAX(floor)`, then rooms, then
devices, then actuator-state restoration. -/
def loadSmarthouseDeep (db : DB) : Except LoadError House :=
  match maxFloor db.rooms with
  | none => Except.error LoadError.emptyStructure
  | some n =>
    match loadRooms (levelsOf n) db.rooms with
    | Except.error e => Except.error e
    | Except.ok rooms =>
      match loadDevices rooms db.devices with
      | Except.error e => Except.error e
      | Except.ok devices =>
        Except.ok ⟨levelsOf n, rooms, (devices.map (applyStates db.states))⟩

/-- Device-variant dispatch of `get_device_by_id`: `category == 'sensor'`
→ `Sensor`; `category == 'actuator'` → `Actuator` (no special case for
heat pumps); any other category → `None`. -/
def classifyShallow (_kind category : String) : Option DeviceVariant :=
  if category = "sensor" then some DeviceVariant.sensor
  else if category = "actuator" then some DeviceVariant.actuator
  else none

/-- `get_device_by_id`: fetch the first `devices` row with the given id
and build the device object; `none` when no row matches or the category
is neither `sensor` nor `actuator`.  The result carries the variant and
the fields passed to the constructor. -/
def getDeviceById (db : DB) (deviceId : String) : Option LoadedDevice :=
  match db.devices.find? (fun d => d.id = deviceId) with
  | none => none
  | some d =>
    (classifyShallow d.kind d.category).map
      (fun v => ⟨d.id, d.product, d.supplier, d.kind, v, d.room, none⟩)

/-- The per-row effect of `UPDATE devices SET state = ? WHERE id = ?`
with parameter `1 if new_state else 0`. -/
def updDev (actuatorId : String) (newState : Bool) (d : DeviceRow) : DeviceRow :=
  if d.id = actuatorId then
    { d with state := some (if newState then (1 : Val) else 0) }
  else d

/-- `update_actuator_state`: apply `updDev` to every `devices` row; only
the `state` column of the matching rows changes. -/
def updateActuatorState (db : DB) (actuatorId : String) (newState : Bool) : DB :=
  { db with devices := db.devices.map (updDev actuatorId newState) }

/-- The `state` column of the first `devices` row with the given id
(`none` when no row exists, `some none` when the column is NULL). -/
def storedStateColumn (db : DB) (deviceId : String) : Option (Option Val) :=
  (db.devices.find? (fun d => d.id = deviceId)).map (fun d => d.state)

/-- Python truthiness of the nullable stored state, as `bool(row[0])`
computes it: `None` and `0` are falsy, any other number truthy. -/
def pyTruthy (s : Option Val) : Bool :=
  match s with
  | none => false
  | some v => v ≠ 0

/-- `get_actuator_state`: `SELECT state FROM devices WHERE id = ?`, then
`bool(row[0])` when a row exists, else `None`. -/
def getActuatorState (db : DB) (actuatorId : String) : Option Bool :=
  (storedStateColumn db actuatorId).map pyTruthy

/-- The non-`state` columns of a device row (what `update_actuator_state`
leaves untouched). -/
def devRowKey (d : DeviceRow) : String × Int × String × String × String × String :=
  (d.id, d.room, d.kind, d.category, d.supplier, d.product)

/-- Arithmetic mean of a list of values (`AVG` over a nonempty group). -/
def avgD (xs : List Val) : Val :=
  xs.sum / (xs.length : Val)

/-- `measurements INNER JOIN devices ON measurements.device = devices.id`. -/
def mdPairs (db : DB) : List (MeasurementRow × DeviceRow) :=
  db.measurements.flatMap
    (fun m => (db.devices.filter (fun d => m.device = d.id)).map (fun d => (m, d)))

/-- The three-way join of `calc_avg_temperatures_in_room`:
`measurements JOIN devices ON m.device = d.id JOIN rooms ON d.room = r.id`. -/
def mdrTriples (db : DB) : List (MeasurementRow × DeviceRow × RoomRow) :=
  db.measurements.flatMap
    (fun m =>
      (db.devices.filter (fun d => m.device = d.id)).flatMap
        (fun d =>
          (db.rooms.filter (fun r => d.room = r.id)).map (fun r => (m, d, r))))

/-- The `WHERE` clause of `calc_avg_temperatures_in_room` on a joined
triple: room name matches, unit is `'°C'`, and each present bound
compares the raw timestamp string (`m.ts >= ?` / `m.ts <= ?`, SQLite
TEXT comparison against the date-string parameter). -/
def tempWhere (roomName : String) (fromDate untilDate : Option String)
    (t : MeasurementRow × DeviceRow × RoomRow) : Bool :=
  t.2.2.name = roomName && t.1.unit = "°C" &&
  (match fromDate with
   | none => true
   | some s => sqliteLe s (tsString t.1.ts)) &&
  (match untilDate with
   | none => true
   | some s => sqliteLe (tsString t.1.ts) s)

/-- The measurements selected by `calc_avg_temperatures_in_room`
(join multiplicities preserved, as `AVG` sees them). -/
def tempSelected (db : DB) (roomName : String) (fromDate untilDate : Option String) :
    List MeasurementRow :=
  ((mdrTriples db).filter (tempWhere roomName fromDate untilDate)).map (fun t => t.1)

/-- First-occurrence deduplication, keeping the order in which distinct
keys first appear (the group keys of `GROUP BY` as the Python dict
collects them). -/
def dedupFirst (seen : List String) : List String → List String
  | [] => []
  | x :: xs =>
    if x ∈ seen then dedupFirst seen xs
    else x :: dedupFirst (x :: seen) xs

/-- `calc_avg_temperatures_in_room`: group the selected measurements by
`strftime('%Y-%m-%d', m.ts)` and average the values per group; the
result is the date-keyed dictionary as an association list. -/
def calcAvgTemperaturesInRoom (db : DB) (roomName : String)
    (fromDate untilDate : Option String) : List (String × Val) :=
  (dedupFirst [] ((tempSelected db roomName fromDate untilDate).map (fun m => m.ts.date))).map
    (fun dt => (dt, avgD (((tempSelected db roomName fromDate untilDate).filter
      (fun m => m.ts.date = dt)).map (fun m => m.value))))

/-- Declarative membership form of the selection of
`calc_avg_temperatures_in_room`: the measurement has the temperature
unit, lies within the (string-compared) bounds, and is emitted by some
device located in some room with the given name. -/
def tempSelP (db : DB) (roomName : String) (fromDate untilDate : Option String)
    (m : MeasurementRow) : Bool :=
  m.unit = "°C" &&
  (match fromDate with
   | none => true
   | some s => sqliteLe s (tsString m.ts)) &&
  (match untilDate with
   | none => true
   | some s => sqliteLe (tsString m.ts) s) &&
  db.devices.any
    (fun d => m.device = d.id &&
      db.rooms.any (fun r => d.room = r.id && r.name = roomName))

/-- Second definition, following claim C2's words rather than the code:
the inclusive `[from_date, until_date]` range is taken at day
granularity — a measurement taken at any time-of-day on `until_date`
itself is included — so the bounds compare the calendar date derived
from the timestamp, not the raw timestamp string. -/
def tempWhereClaim (roomName : String) (fromDate untilDate : Option String)
    (t : MeasurementRow × DeviceRow × RoomRow) : Bool :=
  t.2.2.name = roomName && t.1.unit = "°C" &&
  (match fromDate with
   | none => true
   | some s => sqliteLe s t.1.ts.date) &&
  (match untilDate with
   | none => true
   | some s => sqliteLe t.1.ts.date s)

/-- Second definition, following claim C2's words: `avg_daily_temp` with
the day-granularity inclusive bounds of `tempWhereClaim`. -/
def avgDailyTempClaim (db : DB) (roomName : String)
    (fromDate untilDate : Option String) : List (String × Val) :=
  (dedupFirst [] ((((mdrTriples db).filter (tempWhereClaim roomName fromDate untilDate)).map
      (fun t => t.1)).map (fun m => m.ts.date))).map
    (fun dt => (dt, avgD (((((mdrTriples db).filter
        (tempWhereClaim roomName fromDate untilDate)).map (fun t => t.1)).filter
      (fun m => m.ts.date = dt)).map (fun m => m.value))))

/-- Python `int(...)` on a nonnegative decimal string such as `'07'`. -/
def parseHour (s : String) : Int :=
  s.data.foldl (fun a c => a * 10 + ((c.toNat : Int) - 48)) 0

/-- Insert into a sorted list of integers (ascending). -/
def insertSorted (x : Int) : List Int → List Int
  | [] => [x]
  | y :: ys => if x ≤ y then x :: y :: ys else y :: insertSorted x ys

/-- Python `sorted` on a list of integers. -/
def sortInts (xs : List Int) : List Int :=
  xs.foldr insertSorted []

/-- The correlated average subquery of `calc_hours_with_humidity_above`:
the values `m2.value` over `measurements JOIN devices` with the same
hour, the outer device's room, the same unit, the same date, and
`d2.kind = 'Humidity Sensor'`. -/
def hourAvgVals (db : DB) (p : MeasurementRow × DeviceRow) : List Val :=
  ((mdPairs db).filter
    (fun q =>
      q.1.ts.hour = p.1.ts.hour && q.2.room = p.2.room &&
      q.1.unit = p.1.unit && q.1.ts.date = p.1.ts.date &&
      q.2.kind = "Humidity Sensor")).map (fun q => q.1.value)

/-- `AVG` of the subquery: NULL (`none`) when the group is empty. -/
def hourAvgOpt (db : DB) (p : MeasurementRow × DeviceRow) : Option Val :=
  let vs := hourAvgVals db p
  if vs.isEmpty then none else some (avgD vs)

/-- The inner subquery rows of `calc_hours_with_humidity_above`:
`(hour, value, avg_humidity)` for every joined measurement of the room
with unit `'%'`, the given date and kind `'Humidity Sensor'`. -/
def humidityInnerRows (db : DB) (roomId : Int) (date : String) :
    List (String × Val × Option Val) :=
  ((mdPairs db).filter
    (fun p =>
      p.2.room = roomId && p.1.unit = "%" && p.1.ts.date = date &&
      p.2.kind = "Humidity Sensor")).map
    (fun p => (p.1.ts.hour, p.1.value, hourAvgOpt db p))

/-- The hard-coded hour list of the outer `WHERE hour IN (...)` clause. -/
def hourWhitelist : List String := ["07", "08", "09", "12", "18"]

/-- `value > avg_humidity` (a comparison with SQL NULL is not true). -/
def aboveAvg (row : String × Val × Option Val) : Bool :=
  match row.2.2 with
  | none => false
  | some a => a < row.2.1

/-- Shared tail of the humidity query: keep the rows passing the given
filter, group by hour with `HAVING COUNT(*) > 3`, parse and sort. -/
def alertHoursFrom (hours : List String) : List Int :=
  sortInts (((dedupFirst [] hours).filter (fun h => 3 < hours.count h)).map parseHour)

/-- `calc_hours_with_humidity_above`: resolve the room by name (first
row; `ValueError` when absent), then run the aggregation query with the
hard-coded hour whitelist and return the sorted qualifying hours. -/
def calcHoursWithHumidityAbove (db : DB) (roomName : String) (date : String) :
    Except AggError (List Int) :=
  match db.rooms.find? (fun r => r.name = roomName) with
  | none => Except.error AggError.unknownRoom
  | some r =>
    let passing := ((humidityInnerRows db r.id date).filter
      (fun row => row.1 ∈ hourWhitelist && aboveAvg row)).map (fun row => row.1)
    Except.ok (alertHoursFrom passing)

/-- Second definition, following claim C1's words rather than the code:
every observed hour-of-day of the date is considered — the query without
the hard-coded hour whitelist. -/
def humidityAlertHoursSpec (db : DB) (roomId : Int) (date : String) : List Int :=
  let passing := ((humidityInnerRows db roomId date).filter aboveAvg).map
    (fun row => row.1)
  alertHoursFrom passing

/-- A one-room, one-humidity-sensor database whose five `'%'`
measurements all fall in hour 10 of 2024-01-01, with values
`[0, 1, 1, 1, 1]` (hour average `4/5`, four values strictly above it). -/
def dbHum : DB :=
  { rooms := [⟨1, 1, 10, "bath"⟩]
    devices := [⟨"h1", 1, "Humidity Sensor", "sensor", "acme", "hygro", none⟩]
    states := []
    measurements :=
      [ ⟨"h1", 0, "%", ⟨"2024-01-01", "10", ":01:00"⟩⟩
      , ⟨"h1", 1, "%", ⟨"2024-01-01", "10", ":02:00"⟩⟩
      , ⟨"h1", 1, "%", ⟨"2024-01-01", "10", ":03:00"⟩⟩
      , ⟨"h1", 1, "%", ⟨"2024-01-01", "10", ":04:00"⟩⟩
      , ⟨"h1", 1, "%", ⟨"2024-01-01", "10", ":05:00"⟩⟩ ] }

/-- A one-room, one-temperature-sensor database with a single `'°C'`
measurement taken at 10:00:00 on 2024-01-02. -/
def dbTemp : DB :=
  { rooms := [⟨1, 1, 10, "kitchen"⟩]
    devices := [⟨"t1", 1, "Temperature Sensor", "sensor", "acme", "thermo", none⟩]
    states := []
    measurements := [⟨"t1", 20, "°C", ⟨"2024-01-02", "10", ":00:00"⟩⟩] }

/-- The empty database (every relation empty). -/
def dbEmpty : DB :=
  { rooms := [], devices := [], states := [], measurements := [] }

/-- A database with a single actuator device row (state column NULL). -/
def dbAct : DB :=
  { rooms := [⟨1, 1, 10, "hall"⟩]
    devices := [⟨"a1", 1, "Lamp", "actuator", "acme", "bulb", none⟩]
    states := []
    measurements := [] }

/-- The rational `0.999`, built directly in lowest terms so that the
kernel can evaluate comparisons against it. -/
def q0999 : Val := ⟨999, 1000, by norm_num, by norm_num⟩

/-- A one-room database with one actuator whose persisted `states` row
holds the value `0.999`. -/
def dbState : DB :=
  { rooms := [⟨1, 1, 10, "hall"⟩]
    devices := [⟨"a1", 1, "Lamp", "actuator", "acme", "bulb", none⟩]
    states := [⟨"a1", some q0999⟩]
    measurements := [] }

/-- A database whose single device row references room id 2, while the
only room row has id 1 (a dangling reference). -/
def dbDangling : DB :=
  { rooms := [⟨1, 1, 10, "hall"⟩]
    devices := [⟨"d1", 2, "Lamp", "actuator", "acme", "bulb", none⟩]
    states := []
    measurements := [] }

/-- A database whose single room row carries floor number 0. -/
def dbFloorZero : DB :=
  { rooms := [⟨1, 0, 10, "cellar"⟩], devices := [], states := [], measurements := [] }

/-- A database whose rooms span up to floor 2 with no room on floor 1. -/
def dbTwoFloors : DB :=
  { rooms := [⟨1, 2, 10, "attic"⟩], devices := [], states := [], measurements := [] }

/-- A one-room database with a single heat-pump actuator device row. -/
def dbHeatPump : DB :=
  { rooms := [⟨1, 1, 10, "living"⟩]
    devices := [⟨"hp", 1, "Heat Pump", "actuator", "acme", "pump", none⟩]
    states := []
    measurements := [] }

/-! ## Helper lemmas -/

theorem exceptMapM_ok_mem {ε α β : Type} {f : α → Except ε β} :
    ∀ {l : List α} {bs : List β}, exceptMapM f l = Except.ok bs →
      ∀ a ∈ l, ∃ b ∈ bs, f a = Except.ok b := by
  intro l
  induction l with
  | nil => intro bs _ a ha; cases ha
  | cons x t ih =>
    intro bs h a ha
    cases hfx : f x with
    | error e => rw [exceptMapM, hfx] at h; cases h
    | ok b =>
      cases hrest : exceptMapM f t with
      | error e => rw [exceptMapM, hfx, hrest] at h; cases h
      | ok bs' =>
        rw [exceptMapM, hfx, hrest] at h
        cases h
        rcases List.mem_cons.mp ha with rfl | hat
        · exact ⟨b, List.mem_cons_self .., hfx⟩
        · obtain ⟨b', hb', hfa⟩ := ih hrest a hat
          exact ⟨b', List.mem_cons_of_mem _ hb', hfa⟩

theorem exceptMapM_ok_of_forall {ε α β : Type} {f : α → Except ε β} :
    ∀ {l : List α}, (∀ a ∈ l, ∃ b, f a = Except.ok b) →
      ∃ bs, exceptMapM f l = Except.ok bs := by
  intro l
  induction l with
  | nil => intro _; exact ⟨[], rfl⟩
  | cons x t ih =>
    intro h
    obtain ⟨b, hb⟩ := h x (List.mem_cons_self ..)
    obtain ⟨bs, hbs⟩ := ih (fun a ha => h a (List.mem_cons_of_mem _ ha))
    exact ⟨b :: bs, by rw [exceptMapM, hb, hbs]⟩

theorem exceptMapM_error_mem {ε α β : Type} {f : α → Except ε β} :
    ∀ {l : List α} {e : ε}, exceptMapM f l = Except.error e →
      ∃ a ∈ l, f a = Except.error e := by
  intro l
  induction l with
  | nil => intro e h; cases h
  | cons x t ih =>
    intro e h
    cases hfx : f x with
    | error e' =>
      rw [exceptMapM, hfx] at h
      cases h
      exact ⟨x, List.mem_cons_self .., hfx⟩
    | ok b =>
      cases hrest : exceptMapM f t with
      | error e' =>
        rw [exceptMapM, hfx, hrest] at h
        cases h
        obtain ⟨a, ha, hfa⟩ := ih hrest
        exact ⟨a, List.mem_cons_of_mem _ ha, hfa⟩
      | ok bs => rw [exceptMapM, hfx, hrest] at h; cases h

theorem exceptMapM_map_of_eq {ε α β : Type} {f : α → Except ε β} {g : α → α} :
    ∀ {l : List α}, (∀ a ∈ l, f (g a) = f a) →
      exceptMapM f (l.map g) = exceptMapM f l := by
  intro l
  induction l with
  | nil => intro _; rfl
  | cons x t ih =>
    intro h
    rw [List.map_cons, exceptMapM, exceptMapM, h x (List.mem_cons_self ..),
      ih (fun a ha => h a (List.mem_cons_of_mem _ ha))]

theorem applyStates_id (states : List StateRow) (d : LoadedDevice) :
    (applyStates states d).id = d.id := by
  unfold applyStates
  cases actuatorCapable d.variant <;> simp
  cases findStateRow states d.id <;> simp

theorem applyStates_variant (states : List StateRow) (d : LoadedDevice) :
    (applyStates states d).variant = d.variant := by
  unfold applyStates
  cases actuatorCapable d.variant <;> simp
  cases findStateRow states d.id <;> simp

theorem applyStates_state_of_found {states : List StateRow} {d : LoadedDevice}
    {s : StateRow} (hc : actuatorCapable d.variant = true)
    (hf : findStateRow states d.id = some s) :
    (applyStates states d).state = some (decodeStateVal s.state) := by
  unfold applyStates
  rw [hc, hf]
  simp

theorem updDev_key (aid : String) (b : Bool) (d : DeviceRow) :
    devRowKey (updDev aid b d) = devRowKey d := by
  unfold updDev devRowKey
  split <;> rfl

theorem loadDevice_updDev (rooms : List LoadedRoom) (aid : String) (b : Bool)
    (d : DeviceRow) : loadDevice rooms (updDev aid b d) = loadDevice rooms d := by
  unfold updDev
  split <;> rfl

theorem loadSmarthouseDeep_ok_elim {db : DB} {h : House}
    (H : loadSmarthouseDeep db = Except.ok h) :
    ∃ n rooms ds, maxFloor db.rooms = some n ∧
      loadRooms (levelsOf n) db.rooms = Except.ok rooms ∧
      loadDevices rooms db.devices = Except.ok ds ∧
      h = ⟨levelsOf n, rooms, ds.map (applyStates db.states)⟩ := by
  unfold loadSmarthouseDeep at H
  split at H
  · cases H
  next n hm =>
    split at H
    · cases H
    next rooms hr =>
      split at H
      · cases H
      next ds hd =>
        cases H
        exact ⟨n, rooms, ds, hm, hr, hd, rfl⟩

/-! ## Claim theorems -/

/-- Claim C1 (code bug, failing input): on a room whose five `'%'`
humidity measurements all fall in hour 10 of the date, with values
`[0, 1, 1, 1, 1]` (hour average `4/5`, strictly exceeded by four
measurements), the claim — and the function's own docstring — require
the qualifying hour 10 in the result, but the code's hard-coded
`WHERE hour IN ('07','08','09','12','18')` clause discards it and the
query returns the empty list; the claim-worded query without the
whitelist returns `[10]`. -/
theorem c1_hardcoded_hours_bug :
    calcHoursWithHumidityAbove dbHum "bath" "2024-01-01" = Except.ok [] ∧
    humidityAlertHoursSpec dbHum 1 "2024-01-01" = [10] ∧
    (dbHum.rooms.find? (fun r => r.name = "bath")).map (fun r => r.id) = some 1 := by
  refine ⟨?_, ?_, by decide⟩
  · norm_num [calcHoursWithHumidityAbove, humidityInnerRows, mdPairs, hourAvgOpt,
      hourAvgVals, avgD, aboveAvg, alertHoursFrom, dedupFirst, sortInts, insertSorted,
      parseHour, hourWhitelist, dbHum, List.find?, List.count, List.flatMap]
  · norm_num [humidityAlertHoursSpec, humidityInnerRows, mdPairs, hourAvgOpt,
      hourAvgVals, avgD, aboveAvg, alertHoursFrom, dedupFirst, sortInts, insertSorted,
      parseHour, hourWhitelist, dbHum, List.count, List.flatMap,
      show Char.toNat '1' = 49 from rfl, show Char.toNat '0' = 48 from rfl]

/-- Claim C2 (counterexample): a single `'°C'` measurement taken at
10:00:00 on `until_date = "2024-01-02"` must be included per the claim
("a measurement taken at any time-of-day on until_date itself is
included"), and the claim-worded day-granularity query indeed returns
`{2024-01-02: 20}`; but the code compares the raw timestamp string
`"2024-01-02 10:00:00"` against `"2024-01-02"` with `m.ts <= ?`, which
is false lexicographically, so the code returns the empty dictionary. -/
theorem c2_counterexample :
    calcAvgTemperaturesInRoom dbTemp "kitchen" none (some "2024-01-02") = [] ∧
    avgDailyTempClaim dbTemp "kitchen" none (some "2024-01-02") = [("2024-01-02", 20)] := by
  constructor
  · norm_num [calcAvgTemperaturesInRoom, tempSelected, tempWhere, mdrTriples, dbTemp,
      sqliteLe, charListLt, tsString, dedupFirst, avgD]
  · norm_num [avgDailyTempClaim, tempWhereClaim, mdrTriples, dbTemp,
      sqliteLe, charListLt, tsString, dedupFirst, avgD]

/-- Claim C3: on a database whose `rooms` relation is empty,
`load_smarthouse_deep` fails with precisely the empty-structure error
(the failure at `range(0, no_floors)` when `MAX(floor)` is NULL — the
spec's `EmptyStructureError`): it returns no `SmartHouse` and no other
error of the loader. -/
theorem c3_empty_rooms_fails (db : DB) (h : db.rooms = []) :
    loadSmarthouseDeep db = Except.error LoadError.emptyStructure := by
  unfold loadSmarthouseDeep
  rw [h]
  rfl

/-- Witness for C3 at the concrete empty database. -/
theorem c3_witness :
    loadSmarthouseDeep dbEmpty = Except.error LoadError.emptyStructure :=
  c3_empty_rooms_fails dbEmpty rfl

/-- Claim C4 (counterexample): the claim's codec encodes `Off` as
absent/NULL, but writing `Off` (`False`) through
`update_actuator_state` stores the value `0` in the `state` column of
the device row — a present `0`, not NULL. -/
theorem c4_counterexample :
    storedStateColumn (updateActuatorState dbAct "a1" false) "a1" = some (some 0) ∧
    storedStateColumn (updateActuatorState dbAct "a1" false) "a1" ≠ some none := by
  decide

/-- Auxiliary for C4: the first updated row found by id after the
update carries the written state value. -/
theorem find?_map_updDev (aid : String) (b : Bool) :
    ∀ (l : List DeviceRow), (∃ d ∈ l, d.id = aid) →
      ∃ d, (l.map (updDev aid b)).find? (fun x => x.id = aid) = some d ∧
        d.state = some (if b then (1 : Val) else 0) := by
  intro l
  induction l with
  | nil => rintro ⟨d, hd, _⟩; cases hd
  | cons a t ih =>
    rintro ⟨d, hd, hid⟩
    by_cases ha : a.id = aid
    · refine ⟨updDev aid b a, ?_, by simp [updDev, ha]⟩
      rw [List.map_cons, List.find?_cons_of_pos _ (by simp [updDev, ha])]
    · have hkeep : updDev aid b a = a := by simp [updDev, ha]
      rw [List.map_cons, hkeep, List.find?_cons_of_neg _ (by simp [ha])]
      apply ih
      rcases List.mem_cons.mp hd with rfl | hdt
      · exact absurd hid ha
      · exact ⟨d, hdt, hid⟩

/-- Claim C4 (amended): the repository's write path accepts only a
boolean; `update_actuator_state` stores `1` for `True` and `0` for
`False` in the `state` column of `devices` (never NULL), and
`get_actuator_state` decodes a stored value by Python truthiness, so
the Boolean round trip holds for every device present in `devices`.
No `OnWithLevel` value can be written through this pair, and `Off` is
stored as `0`, not as absent/NULL. -/
theorem c4_amended_bool_roundtrip (db : DB) (aid : String) (b : Bool)
    (hmem : ∃ d ∈ db.devices, d.id = aid) :
    getActuatorState (updateActuatorState db aid b) aid = some b := by
  obtain ⟨d, hfind, hstate⟩ := find?_map_updDev aid b db.devices hmem
  have hcol : storedStateColumn (updateActuatorState db aid b) aid = some d.state := by
    unfold storedStateColumn updateActuatorState
    rw [hfind]
    rfl
  unfold getActuatorState
  rw [hcol, hstate]
  cases b <;> simp [pyTruthy]

/-- Witness for C4's amended round trip at a concrete database. -/
theorem c4_amended_witness :
    getActuatorState (updateActuatorState dbAct "a1" true) "a1" = some true :=
  c4_amended_bool_roundtrip dbAct "a1" true
    ⟨⟨"a1", 1, "Lamp", "actuator", "acme", "bulb", none⟩, by decide, rfl⟩

/-- Claim C5: `update_actuator_state` changes only the `state` column
of the `devices` relation: the `states`, `rooms` and `measurements`
relations and all other device columns are unchanged, and a subsequent
`load_smarthouse_deep` — which decodes actuator state from the
untouched `states` relation and never reads `devices.state` — returns
exactly what it returned before the write. -/
theorem c5_update_frame (db : DB) (aid : String) (b : Bool) :
    (updateActuatorState db aid b).states = db.states ∧
    (updateActuatorState db aid b).rooms = db.rooms ∧
    (updateActuatorState db aid b).measurements = db.measurements ∧
    (updateActuatorState db aid b).devices.map devRowKey = db.devices.map devRowKey ∧
    loadSmarthouseDeep (updateActuatorState db aid b) = loadSmarthouseDeep db := by
  have hld : ∀ rooms : List LoadedRoom,
      loadDevices rooms ((updateActuatorState db aid b).devices) =
        loadDevices rooms db.devices := by
    intro rooms
    show loadDevices rooms (db.devices.map (updDev aid b)) = _
    unfold loadDevices
    rw [exceptMapM_map_of_eq (fun d _ => loadDevice_updDev rooms aid b d)]
  refine ⟨rfl, rfl, rfl, ?_, ?_⟩
  · show (db.devices.map (updDev aid b)).map devRowKey = _
    rw [List.map_map]
    exact List.map_congr_left (fun d _ => updDev_key aid b d)
  · simp only [loadSmarthouseDeep, hld,
      show (updateActuatorState db aid b).rooms = db.rooms from rfl,
      show (updateActuatorState db aid b).states = db.states from rfl]

/-- Claim C9 (counterexample): on a non-empty `rooms` relation whose
single room has floor number 0, the maximum floor is `N = 0`, the
registered floors list is empty, and the room-creation step indexes
`floors[0 - 1]` — a Python `IndexError` on the empty list — so
`load_structure` fails instead of returning a `SmartHouse` with the
claimed floors; the claim's universal statement over every non-empty
rooms relation is false. -/
theorem c9_counterexample :
    dbFloorZero.rooms ≠ [] ∧
    maxFloor dbFloorZero.rooms = some 0 ∧
    loadSmarthouseDeep dbFloorZero = Except.error (LoadError.floorIndex (-1)) := by
  decide

/-- Auxiliary: the room-dictionary lookup fails exactly when no loaded
room carries the key as its storage id. -/
theorem dictFind_aux (k : Int) :
    ∀ (l : List LoadedRoom) (acc : Option LoadedRoom),
      l.foldl (fun a rm => if rm.dbId = k then some rm else a) acc = none ↔
        acc = none ∧ ∀ rm ∈ l, rm.dbId ≠ k := by
  intro l
  induction l with
  | nil => intro acc; simp
  | cons x t ih =>
    intro acc
    rw [List.foldl_cons, ih]
    by_cases hx : x.dbId = k
    · simp [hx]
    · simp only [hx, if_false, List.mem_cons]
      constructor
      · rintro ⟨h1, h2⟩
        exact ⟨h1, by rintro rm (rfl | hmem); exacts [hx, h2 rm hmem]⟩
      · rintro ⟨h1, h2⟩
        exact ⟨h1, fun rm hmem => h2 rm (Or.inr hmem)⟩

theorem dictFind_eq_none_iff (rooms : List LoadedRoom) (k : Int) :
    dictFind rooms k = none ↔ ∀ rm ∈ rooms, rm.dbId ≠ k := by
  unfold dictFind
  rw [dictFind_aux k rooms none]
  simp

theorem loadDevices_error {rooms : List LoadedRoom} {rows : List DeviceRow}
    {e : LoadError} (h : exceptMapM (loadDevice rooms) rows = Except.error e) :
    loadDevices rooms rows = Except.error e := by
  unfold loadDevices
  rw [h]

theorem loadDevices_ok {rooms : List LoadedRoom} {rows : List DeviceRow}
    {os : List (Option LoadedDevice)}
    (h : exceptMapM (loadDevice rooms) rows = Except.ok os) :
    loadDevices rooms rows = Except.ok (os.filterMap id) := by
  unfold loadDevices
  rw [h]

theorem loadDevice_error_elim {rooms : List LoadedRoom} {r : DeviceRow}
    {e : LoadError} (h : loadDevice rooms r = Except.error e) :
    e = LoadError.danglingRef r.room ∧ dictFind rooms r.room = none := by
  unfold loadDevice at h
  cases hdf : dictFind rooms r.room <;> rw [hdf] at h
  · simp only [Except.error.injEq] at h
    exact ⟨h.symm, rfl⟩
  · cases h

theorem loadSmarthouseDeep_eq_of {db : DB} {n : Int} {rooms : List LoadedRoom}
    (hm : maxFloor db.rooms = some n)
    (hr : loadRooms (levelsOf n) db.rooms = Except.ok rooms) :
    loadSmarthouseDeep db =
      match loadDevices rooms db.devices with
      | Except.error e => Except.error e
      | Except.ok ds => Except.ok ⟨levelsOf n, rooms, ds.map (applyStates db.states)⟩ := by
  simp only [loadSmarthouseDeep, hm, hr]

/-- Claim C6: during the deep load, every actuator-capable device with
a persisted `states` row gets exactly the decoded state: `Off` when the
stored value is NULL, `On` when it equals `1` exactly, and
`OnWithLevel v` for any other numeric value `v` — the match on `1.0` is
exact equality, not a threshold. -/
theorem c6_state_decoding (db : DB) (h : House) (d : LoadedDevice) (s : StateRow)
    (hload : loadSmarthouseDeep db = Except.ok h) (hd : d ∈ h.devices)
    (hcap : actuatorCapable d.variant = true)
    (hrow : findStateRow db.states d.id = some s) :
    (s.state = none → d.state = some ActuatorState.off) ∧
    (s.state = some 1 → d.state = some ActuatorState.on) ∧
    (∀ v : Val, s.state = some v → v ≠ 1 →
      d.state = some (ActuatorState.onWithLevel v)) := by
  obtain ⟨n, rooms, ds, hm, hr, hdev, hh⟩ := loadSmarthouseDeep_ok_elim hload
  subst hh
  obtain ⟨d0, hd0, rfl⟩ := List.mem_map.mp hd
  have hvar := applyStates_variant db.states d0
  have hid := applyStates_id db.states d0
  have hcap0 : actuatorCapable d0.variant = true := by rw [← hvar]; exact hcap
  have hrow0 : findStateRow db.states d0.id = some s := by rw [← hid]; exact hrow
  have hstate := applyStates_state_of_found hcap0 hrow0
  refine ⟨?_, ?_, ?_⟩
  · intro hnone; rw [hstate, hnone]; rfl
  · intro h1; rw [hstate, h1]; simp [decodeStateVal]
  · intro v hv hne; rw [hstate, hv]; simp [decodeStateVal, hne]

/-- Witness for C6: loading the concrete database whose state row holds
`0.999` yields the actuator in state `OnWithLevel 0.999` — not `On`. -/
theorem c6_witness :
    (⟨"a1", "bulb", "acme", "Lamp", DeviceVariant.actuator, 1,
      some (ActuatorState.onWithLevel q0999)⟩ : LoadedDevice).state =
      some (ActuatorState.onWithLevel q0999) := by
  have H := c6_state_decoding dbState
    ⟨[1], [⟨1, 1, 10, "hall"⟩],
      [⟨"a1", "bulb", "acme", "Lamp", DeviceVariant.actuator, 1,
        some (ActuatorState.onWithLevel q0999)⟩]⟩
    ⟨"a1", "bulb", "acme", "Lamp", DeviceVariant.actuator, 1,
      some (ActuatorState.onWithLevel q0999)⟩
    ⟨"a1", some q0999⟩ (by decide) (by decide) (by decide) (by decide)
  exact H.2.2 q0999 rfl (by decide)

/-- Claim C7: a room name that resolves to no stored room makes
`calc_hours_with_humidity_above` fail with the unknown-room error
rather than return an empty list, while a stored room with no matching
humidity data for the date yields the empty list rather than a
failure. -/
theorem c7_unknown_room (db : DB) (roomName date : String) :
    ((∀ r ∈ db.rooms, r.name ≠ roomName) →
      calcHoursWithHumidityAbove db roomName date = Except.error AggError.unknownRoom) ∧
    (∀ r : RoomRow, db.rooms.find? (fun x => x.name = roomName) = some r →
      (∀ m ∈ db.measurements, ∀ dv ∈ db.devices,
        ¬(m.device = dv.id ∧ dv.room = r.id ∧ m.unit = "%" ∧
          m.ts.date = date ∧ dv.kind = "Humidity Sensor")) →
      calcHoursWithHumidityAbove db roomName date = Except.ok []) := by
  constructor
  · intro hnone
    unfold calcHoursWithHumidityAbove
    have hf : db.rooms.find? (fun x => x.name = roomName) = none :=
      List.find?_eq_none.mpr (fun r hr => by simpa using hnone r hr)
    rw [hf]
  · intro r hfind hempty
    have hrows : humidityInnerRows db r.id date = [] := by
      unfold humidityInnerRows
      have hfil : (mdPairs db).filter
          (fun p => p.2.room = r.id && p.1.unit = "%" && p.1.ts.date = date &&
            p.2.kind = "Humidity Sensor") = [] := by
        rw [List.filter_eq_nil_iff]
        intro p hp
        obtain ⟨m, hm, hpair⟩ := List.mem_flatMap.mp hp
        obtain ⟨dv, hdvf, rfl⟩ := List.mem_map.mp hpair
        obtain ⟨hdv, hjoin⟩ := List.mem_filter.mp hdvf
        intro hcond
        simp only [Bool.and_eq_true, decide_eq_true_eq] at hcond
        obtain ⟨⟨⟨h1, h2⟩, h3⟩, h4⟩ := hcond
        exact hempty m hm dv hdv ⟨of_decide_eq_true hjoin, h1, h2, h3, h4⟩
      rw [hfil]
      rfl
    unfold calcHoursWithHumidityAbove
    rw [hfind]
    show Except.ok (alertHoursFrom (((humidityInnerRows db r.id date).filter
      (fun row => row.1 ∈ hourWhitelist && aboveAvg row)).map (fun row => row.1))) =
      Except.ok ([] : List Int)
    rw [hrows]
    rfl

/-- Witness for C7 at concrete databases: an unknown room name fails,
and the stored room `kitchen` with no `'%'` data yields the empty list. -/
theorem c7_witness :
    calcHoursWithHumidityAbove dbTemp "lounge" "2024-01-01" =
      Except.error AggError.unknownRoom ∧
    calcHoursWithHumidityAbove dbTemp "kitchen" "2024-01-01" = Except.ok [] := by
  constructor
  · exact (c7_unknown_room dbTemp "lounge" "2024-01-01").1 (by decide)
  · exact (c7_unknown_room dbTemp "kitchen" "2024-01-01").2
      ⟨1, 1, 10, "kitchen"⟩ (by decide) (by decide)

/-- Claim C8: once the loader has registered floors and rooms, a device
row whose referenced room id is absent from the loaded rooms makes
`load_smarthouse_deep` fail with a dangling-reference error (never
silently dropped); when every device row references a loaded room id,
no dangling-reference failure occurs. -/
theorem c8_dangling_reference (db : DB) (n : Int) (rooms : List LoadedRoom)
    (hm : maxFloor db.rooms = some n)
    (hr : loadRooms (levelsOf n) db.rooms = Except.ok rooms) :
    ((∃ dr ∈ db.devices, ∀ rm ∈ rooms, rm.dbId ≠ dr.room) →
      ∃ k, loadSmarthouseDeep db = Except.error (LoadError.danglingRef k)) ∧
    ((∀ dr ∈ db.devices, ∃ rm ∈ rooms, rm.dbId = dr.room) →
      ∀ k, loadSmarthouseDeep db ≠ Except.error (LoadError.danglingRef k)) := by
  constructor
  · rintro ⟨dr, hdr, habs⟩
    have hnone : dictFind rooms dr.room = none := (dictFind_eq_none_iff ..).mpr habs
    have herr : loadDevice rooms dr = Except.error (LoadError.danglingRef dr.room) := by
      unfold loadDevice
      rw [hnone]
    cases hmm : exceptMapM (loadDevice rooms) db.devices with
    | ok os =>
      obtain ⟨b, _, hok⟩ := exceptMapM_ok_mem hmm dr hdr
      rw [herr] at hok
      cases hok
    | error e =>
      obtain ⟨a, _, hae⟩ := exceptMapM_error_mem hmm
      obtain ⟨he, -⟩ := loadDevice_error_elim hae
      subst he
      exact ⟨a.room, by rw [loadSmarthouseDeep_eq_of hm hr, loadDevices_error hmm]⟩
  · intro hall k
    have hok : ∀ dr ∈ db.devices, ∃ b, loadDevice rooms dr = Except.ok b := by
      intro dr hdr
      obtain ⟨rm, hrm, hrmid⟩ := hall dr hdr
      cases hdf : dictFind rooms dr.room with
      | none =>
        rw [dictFind_eq_none_iff] at hdf
        exact absurd hrmid (hdf rm hrm)
      | some rm' => exact ⟨_, by unfold loadDevice; rw [hdf]⟩
    obtain ⟨os, hos⟩ := exceptMapM_ok_of_forall hok
    intro hcontra
    rw [loadSmarthouseDeep_eq_of hm hr, loadDevices_ok hos] at hcontra
    exact Except.noConfusion hcontra

/-- Witness for C8 at concrete databases: the dangling device row makes
the load fail with the dangling-reference error for room id 2, while
the fully-linked heat-pump database never fails that way. -/
theorem c8_witness :
    loadSmarthouseDeep dbDangling = Except.error (LoadError.danglingRef 2) ∧
    loadSmarthouseDeep dbHeatPump ≠ Except.error (LoadError.danglingRef 1) := by
  constructor
  · decide
  · exact (c8_dangling_reference dbHeatPump 1 [⟨1, 1, 10, "living"⟩]
      (by decide) (by decide)).2 (by decide) 1

/-- Auxiliary: a folded maximum bounds every accumulator and element. -/
theorem maxFloor_aux (M : Int) :
    ∀ (l : List RoomRow) (acc : Option Int),
      l.foldl
        (fun a r =>
          match a with
          | none => some r.floor
          | some m => some (max m r.floor)) acc = some M →
      (∀ a : Int, acc = some a → a ≤ M) ∧ ∀ r ∈ l, r.floor ≤ M := by
  intro l
  induction l with
  | nil =>
    intro acc h
    rw [List.foldl_nil] at h
    exact ⟨fun a ha => by rw [ha] at h; cases h; exact le_refl M, fun r hr => absurd hr (List.not_mem_nil r)⟩
  | cons x t ih =>
    intro acc h
    rw [List.foldl_cons] at h
    obtain ⟨hacc, hmem⟩ := ih _ h
    have hx : x.floor ≤ M := by
      cases acc with
      | none => exact hacc x.floor rfl
      | some a => exact le_trans (le_max_right a x.floor) (hacc _ rfl)
    refine ⟨?_, ?_⟩
    · intro a ha
      cases acc with
      | none => cases ha
      | some a0 =>
        cases ha
        exact le_trans (le_max_left a x.floor) (hacc _ rfl)
    · intro r hr
      rcases List.mem_cons.mp hr with rfl | hrt
      · exact hx
      · exact hmem r hrt

theorem maxFloor_le {rooms : List RoomRow} {M : Int}
    (h : maxFloor rooms = some M) : ∀ r ∈ rooms, r.floor ≤ M :=
  (maxFloor_aux M rooms none h).2

/-- Auxiliary: a room row with a floor number in `1..n` registers
successfully under exactly its floor number. -/
theorem loadRoom_ok {n : Int} {r : RoomRow} (h1 : 1 ≤ r.floor)
    (hn : r.floor ≤ n) :
    loadRoom (levelsOf n) r = Except.ok ⟨r.id, r.floor, r.area, r.name⟩ := by
  have hk : (r.floor - 1).toNat < n.toNat := by omega
  have hidx : pyIndex (levelsOf n) (r.floor - 1) = some r.floor := by
    unfold pyIndex
    have hneg : ¬(r.floor - 1 < 0) := by omega
    rw [if_neg hneg, if_pos (by omega : (0 : Int) ≤ r.floor - 1),
      List.get?_eq_getElem?]
    unfold levelsOf
    rw [List.getElem?_map, List.getElem?_range hk]
    show some (((r.floor - 1).toNat : Int) + 1) = some r.floor
    congr 1
    omega
  unfold loadRoom
  rw [hidx]

/-- Auxiliary: when every room row's floor lies in `1..n`, room loading
succeeds and the loaded rooms carry exactly the row ids, in order. -/
theorem loadRooms_ok_of {n : Int} :
    ∀ rows : List RoomRow, (∀ r ∈ rows, 1 ≤ r.floor ∧ r.floor ≤ n) →
      ∃ rs, loadRooms (levelsOf n) rows = Except.ok rs ∧
        rs.map (fun rm => rm.dbId) = rows.map (fun r => r.id) := by
  intro rows
  induction rows with
  | nil => intro _; exact ⟨[], rfl, rfl⟩
  | cons r t ih =>
    intro h
    obtain ⟨hf1, hfn⟩ := h r (List.mem_cons_self ..)
    obtain ⟨rs, hrs, hmapeq⟩ := ih (fun x hx => h x (List.mem_cons_of_mem _ hx))
    refine ⟨⟨r.id, r.floor, r.area, r.name⟩ :: rs, ?_, ?_⟩
    · unfold loadRooms at hrs ⊢
      rw [exceptMapM, loadRoom_ok hf1 hfn, hrs]
    · simp [hmapeq]

/-- Claim C9 (amended): for a non-empty `rooms` relation whose floor
numbers are all at least 1 and whose maximum floor number is `N`, and
whose device rows all reference existing room ids, `load_structure`
returns a `SmartHouse` with exactly `N` floors carrying levels
`1..N` in ascending order — including floors referenced by no room
row.  (The positivity and referential hypotheses are forced by the
counterexample: a floor number `≤ 0` or a dangling device makes the
load fail instead of returning a house.) -/
theorem c9_amended_floors (db : DB) (n : Int)
    (hne : db.rooms ≠ [])
    (hpos : ∀ r ∈ db.rooms, 1 ≤ r.floor)
    (hm : maxFloor db.rooms = some n)
    (hdev : ∀ dr ∈ db.devices, ∃ r ∈ db.rooms, r.id = dr.room) :
    ∃ h, loadSmarthouseDeep db = Except.ok h ∧
      h.floors = levelsOf n ∧
      h.floors.length = n.toNat ∧
      ∀ k : ℕ, k < n.toNat → h.floors[k]? = some ((k : Int) + 1) := by
  have hle := maxFloor_le hm
  obtain ⟨rs, hrs, hmapeq⟩ := loadRooms_ok_of db.rooms (fun r hr => ⟨hpos r hr, hle r hr⟩)
  have hally : ∀ dr ∈ db.devices, ∃ b, loadDevice rs dr = Except.ok b := by
    intro dr hdr
    obtain ⟨r, hrmem, hrid⟩ := hdev dr hdr
    have hin : dr.room ∈ rs.map (fun rm => rm.dbId) := by
      rw [hmapeq]
      exact List.mem_map.mpr ⟨r, hrmem, hrid⟩
    obtain ⟨rm, hrm, hid⟩ := List.mem_map.mp hin
    cases hdf : dictFind rs dr.room with
    | none =>
      rw [dictFind_eq_none_iff] at hdf
      exact absurd hid (hdf rm hrm)
    | some rm' => exact ⟨_, by unfold loadDevice; rw [hdf]⟩
  obtain ⟨os, hos⟩ := exceptMapM_ok_of_forall hally
  refine ⟨⟨levelsOf n, rs, (os.filterMap id).map (applyStates db.states)⟩, ?_, rfl, ?_, ?_⟩
  · rw [loadSmarthouseDeep_eq_of hm hrs, loadDevices_ok hos]
  · show (levelsOf n).length = n.toNat
    unfold levelsOf
    rw [List.length_map, List.length_range]
  · intro k hk
    show (levelsOf n)[k]? = some ((k : Int) + 1)
    unfold levelsOf
    rw [List.getElem?_map, List.getElem?_range hk]
    rfl

/-- Witness for C9's amended claim: loading the database whose single
room sits on floor 2 yields floors `[1, 2]` — floor 1 exists although
no room references it. -/
theorem c9_witness :
    (loadSmarthouseDeep dbTwoFloors).toOption.map House.floors = some [1, 2] := by
  obtain ⟨h, hload, hfl, -, -⟩ := c9_amended_floors dbTwoFloors 2 (by decide)
    (by decide) (by decide) (by decide)
  rw [hload]
  show some h.floors = some [1, 2]
  rw [hfl]
  decide

/-- Auxiliary: with pairwise-distinct device ids, the row lookup by id
finds exactly the member row. -/
theorem find?_id_of_nodup {l : List DeviceRow}
    (hnd : (l.map (fun d => d.id)).Nodup) {dr : DeviceRow} (hmem : dr ∈ l) :
    l.find? (fun d => d.id = dr.id) = some dr := by
  induction l with
  | nil => cases hmem
  | cons a t ih =>
    rw [List.map_cons, List.nodup_cons] at hnd
    rcases List.mem_cons.mp hmem with rfl | hmt
    · rw [List.find?_cons_of_pos _ (by simp)]
    · have hne : ¬(a.id = dr.id) := by
        intro he
        have hdm : dr.id ∈ t.map (fun d => d.id) := List.mem_map.mpr ⟨dr, hmt, rfl⟩
        rw [← he] at hdm
        exact hnd.1 hdm
      rw [List.find?_cons_of_neg _ (by simp [hne])]
      exact ih hnd.2 hmt

/-- Auxiliary: every device row whose category registers a variant
appears in the successfully loaded device list with its id and that
variant. -/
theorem loadDevices_mem {rooms : List LoadedRoom} {rows : List DeviceRow}
    {ds : List LoadedDevice} (h : loadDevices rooms rows = Except.ok ds)
    {dr : DeviceRow} (hmem : dr ∈ rows) {v : DeviceVariant}
    (hcl : classifyDeep dr.kind dr.category = some v) :
    ∃ d ∈ ds, d.id = dr.id ∧ d.variant = v := by
  unfold loadDevices at h
  cases hmm : exceptMapM (loadDevice rooms) rows with
  | error e => rw [hmm] at h; cases h
  | ok os =>
    rw [hmm] at h
    simp only [Except.ok.injEq] at h
    subst h
    obtain ⟨b, hb, hok⟩ := exceptMapM_ok_mem hmm dr hmem
    unfold loadDevice at hok
    cases hdf : dictFind rooms dr.room <;> rw [hdf] at hok
    · cases hok
    next rm =>
      simp only [Except.ok.injEq] at hok
      subst hok
      rw [hcl] at hb
      exact ⟨⟨dr.id, dr.product, dr.supplier, dr.kind, v, rm.dbId, none⟩,
        List.mem_filterMap.mpr ⟨_, hb, rfl⟩, rfl, rfl⟩

/-- Claim C10: a stored device row with category `'actuator'` and kind
`'Heat Pump'` is reconstructed as a plain `Actuator` by
`get_device_by_id` (which has no heat-pump special case) but as an
`ActuatorWithSensor` by `load_smarthouse_deep` — the two
reconstruction paths disagree on the device variant for heat pumps. -/
theorem c10_heat_pump_divergence (db : DB) (dr : DeviceRow) (h : House)
    (hnd : (db.devices.map (fun d => d.id)).Nodup)
    (hmem : dr ∈ db.devices)
    (hcat : dr.category = "actuator") (hkind : dr.kind = "Heat Pump")
    (hload : loadSmarthouseDeep db = Except.ok h) :
    (getDeviceById db dr.id).map (fun d => d.variant) = some DeviceVariant.actuator ∧
    ∃ d ∈ h.devices, d.id = dr.id ∧ d.variant = DeviceVariant.actuatorWithSensor := by
  constructor
  · have hcs : classifyShallow dr.kind dr.category = some DeviceVariant.actuator := by
      unfold classifyShallow
      rw [hcat]
      simp
    unfold getDeviceById
    rw [find?_id_of_nodup hnd hmem]
    show Option.map (fun d => d.variant)
        ((classifyShallow dr.kind dr.category).map
          (fun v => (⟨dr.id, dr.product, dr.supplier, dr.kind, v, dr.room,
            none⟩ : LoadedDevice))) =
      some DeviceVariant.actuator
    rw [hcs]
    rfl
  · obtain ⟨n, rooms, ds, hm, hr, hdev, hh⟩ := loadSmarthouseDeep_ok_elim hload
    subst hh
    have hcl : classifyDeep dr.kind dr.category = some DeviceVariant.actuatorWithSensor := by
      unfold classifyDeep
      rw [hcat, hkind]
      simp
    obtain ⟨d, hd, hid, hvar⟩ := loadDevices_mem hdev hmem hcl
    refine ⟨applyStates db.states d, List.mem_map.mpr ⟨d, hd, rfl⟩, ?_, ?_⟩
    · rw [applyStates_id]
      exact hid
    · rw [applyStates_variant]
      exact hvar

/-- Witness for C10 at the concrete heat-pump database. -/
theorem c10_witness :
    (getDeviceById dbHeatPump "hp").map (fun d => d.variant) =
      some DeviceVariant.actuator := by
  have H := c10_heat_pump_divergence dbHeatPump
    ⟨"hp", 1, "Heat Pump", "actuator", "acme", "pump", none⟩
    ⟨[1], [⟨1, 1, 10, "living"⟩],
      [⟨"hp", "pump", "acme", "Heat Pump", DeviceVariant.actuatorWithSensor, 1, none⟩]⟩
    (by decide) (by decide) rfl rfl (by decide)
  exact H.1

/-- Auxiliary: a list whose mapped keys are pairwise distinct yields,
for any key value, either no match or exactly one matching element
under the key-equality filter. -/
theorem filter_of_nodup_key {α K : Type} [DecidableEq K] (key : α → K) :
    ∀ l : List α, (l.map key).Nodup → ∀ k : K,
      ((∀ x ∈ l, key x ≠ k) ∧ l.filter (fun x => k = key x) = []) ∨
      (∃ x ∈ l, key x = k ∧ l.filter (fun x => k = key x) = [x]) := by
  intro l
  induction l with
  | nil =>
    intro _ k
    exact Or.inl ⟨fun x hx => absurd hx (List.not_mem_nil x), rfl⟩
  | cons y t ih =>
    intro hnd k
    rw [List.map_cons, List.nodup_cons] at hnd
    by_cases hy : key y = k
    · refine Or.inr ⟨y, List.mem_cons_self .., hy, ?_⟩
      have ht : t.filter (fun x => k = key x) = [] := by
        rw [List.filter_eq_nil_iff]
        intro x hx
        simp only [decide_eq_true_eq]
        intro he
        have hin : key x ∈ t.map key := List.mem_map.mpr ⟨x, hx, rfl⟩
        rw [← he, ← hy] at hin
        exact hnd.1 hin
      rw [List.filter_cons, if_pos (by simp [hy]), ht]
    · have hcond : ¬(decide (k = key y) = true) := by
        simp only [decide_eq_true_eq]
        exact fun he => hy he.symm
      rcases ih hnd.2 k with ⟨hall, hfil⟩ | ⟨x, hx, hk, hfil⟩
      · refine Or.inl ⟨?_, ?_⟩
        · intro x hx
          rcases List.mem_cons.mp hx with rfl | hxt
          · exact hy
          · exact hall x hxt
        · rw [List.filter_cons, if_neg hcond, hfil]
      · exact Or.inr ⟨x, List.mem_cons_of_mem _ hx, hk,
          by rw [List.filter_cons, if_neg hcond, hfil]⟩

/-- Auxiliary: `any` is false when the predicate holds for no member. -/
theorem any_false_of_none {α : Type} {p : α → Bool} {l : List α}
    (h : ∀ x ∈ l, ¬ p x = true) : l.any p = false := by
  cases hl : l.any p
  · rfl
  · obtain ⟨x, hx, hpx⟩ := List.any_eq_true.mp hl
    exact absurd hpx (h x hx)

/-- Auxiliary for C2: under unique device and room ids, the per-
measurement slice of the three-way join, filtered by the `WHERE`
clause and projected back to the measurement, is the measurement
itself when the declarative selection predicate holds and empty
otherwise. -/
theorem perMeasurement (db : DB) (roomName : String)
    (fromDate untilDate : Option String)
    (hndD : (db.devices.map (fun d => d.id)).Nodup)
    (hndR : (db.rooms.map (fun r => r.id)).Nodup) (m : MeasurementRow) :
    (((db.devices.filter (fun d => m.device = d.id)).flatMap
        (fun d => (db.rooms.filter (fun r => d.room = r.id)).map
          (fun r => (m, d, r)))).filter
      (tempWhere roomName fromDate untilDate)).map (fun t => t.1) =
    (if tempSelP db roomName fromDate untilDate m then [m] else []) := by
  rcases filter_of_nodup_key (fun d => d.id) db.devices hndD m.device with
    ⟨hallD, hfilD⟩ | ⟨d0, hd0, hd0id, hfilD⟩
  · rw [hfilD]
    have hany : db.devices.any (fun d => m.device = d.id &&
        db.rooms.any (fun r => d.room = r.id && r.name = roomName)) = false := by
      apply any_false_of_none
      intro d hd
      simp only [Bool.and_eq_true, decide_eq_true_eq, not_and]
      intro he _
      exact (hallD d hd) he.symm
    have hsel : tempSelP db roomName fromDate untilDate m = false := by
      unfold tempSelP
      rw [hany, Bool.and_false]
    rw [hsel]
    rfl
  · rw [hfilD]
    simp only [List.flatMap_cons, List.flatMap_nil, List.append_nil]
    rcases filter_of_nodup_key (fun r => r.id) db.rooms hndR d0.room with
      ⟨hallR, hfilR⟩ | ⟨r0, hr0, hr0id, hfilR⟩
    · rw [hfilR]
      have hany : db.devices.any (fun d => m.device = d.id &&
          db.rooms.any (fun r => d.room = r.id && r.name = roomName)) = false := by
        apply any_false_of_none
        intro d hd
        simp only [Bool.and_eq_true, decide_eq_true_eq, not_and]
        intro he hin
        have hdm : d ∈ db.devices.filter (fun x => m.device = x.id) :=
          List.mem_filter.mpr ⟨hd, by simp [he]⟩
        rw [hfilD] at hdm
        have hdd : d = d0 := by simpa using hdm
        subst hdd
        obtain ⟨r, hr, hpr⟩ := List.any_eq_true.mp hin
        simp only [Bool.and_eq_true, decide_eq_true_eq] at hpr
        exact (hallR r hr) hpr.1.symm
      have hsel : tempSelP db roomName fromDate untilDate m = false := by
        unfold tempSelP
        rw [hany, Bool.and_false]
      rw [hsel]
      rfl
    · rw [hfilR]
      simp only [List.map_cons, List.map_nil]
      rw [List.filter_cons]
      have hany : db.devices.any (fun d => m.device = d.id &&
          db.rooms.any (fun r => d.room = r.id && r.name = roomName)) =
          decide (r0.name = roomName) := by
        cases hnm : decide (r0.name = roomName) with
        | true =>
          apply List.any_eq_true.mpr
          refine ⟨d0, hd0, ?_⟩
          simp only [Bool.and_eq_true, decide_eq_true_eq]
          refine ⟨hd0id.symm, List.any_eq_true.mpr ⟨r0, hr0, ?_⟩⟩
          simp only [Bool.and_eq_true, decide_eq_true_eq]
          exact ⟨hr0id.symm, of_decide_eq_true hnm⟩
        | false =>
          apply any_false_of_none
          intro d hd
          simp only [Bool.and_eq_true, decide_eq_true_eq, not_and]
          intro he hin
          have hdm : d ∈ db.devices.filter (fun x => m.device = x.id) :=
            List.mem_filter.mpr ⟨hd, by simp [he]⟩
          rw [hfilD] at hdm
          have hdd : d = d0 := by simpa using hdm
          subst hdd
          obtain ⟨r, hr, hpr⟩ := List.any_eq_true.mp hin
          simp only [Bool.and_eq_true, decide_eq_true_eq] at hpr
          have hrm : r ∈ db.rooms.filter (fun x => d.room = x.id) :=
            List.mem_filter.mpr ⟨hr, by simp [hpr.1]⟩
          rw [hfilR] at hrm
          have hrr : r = r0 := by simpa using hrm
          subst hrr
          exact absurd hpr.2 (of_decide_eq_false hnm)
      have hw : tempWhere roomName fromDate untilDate (m, d0, r0) =
          tempSelP db roomName fromDate untilDate m := by
        unfold tempWhere tempSelP
        rw [hany, Bool.eq_iff_iff]
        simp only [Bool.and_eq_true, decide_eq_true_eq]
        tauto
      rw [hw]
      cases hts : tempSelP db roomName fromDate untilDate m <;> simp [hts]

/-- Auxiliary for C2: under unique keys the measurements selected by
the three-way join equal the measurements satisfying the declarative
selection predicate. -/
theorem tempSel_aux (db : DB) (roomName : String)
    (fromDate untilDate : Option String)
    (hndD : (db.devices.map (fun d => d.id)).Nodup)
    (hndR : (db.rooms.map (fun r => r.id)).Nodup) :
    ∀ ms : List MeasurementRow,
      ((ms.flatMap (fun m => (db.devices.filter (fun d => m.device = d.id)).flatMap
          (fun d => (db.rooms.filter (fun r => d.room = r.id)).map
            (fun r => (m, d, r))))).filter
        (tempWhere roomName fromDate untilDate)).map (fun t => t.1) =
      ms.filter (tempSelP db roomName fromDate untilDate) := by
  intro ms
  induction ms with
  | nil => rfl
  | cons m t ih =>
    rw [List.flatMap_cons, List.filter_append, List.map_append, ih, List.filter_cons,
      perMeasurement db roomName fromDate untilDate hndD hndR m]
    cases hts : tempSelP db roomName fromDate untilDate m <;> simp [hts]

theorem tempSelected_eq_filter (db : DB) (roomName : String)
    (fromDate untilDate : Option String)
    (hndD : (db.devices.map (fun d => d.id)).Nodup)
    (hndR : (db.rooms.map (fun r => r.id)).Nodup) :
    tempSelected db roomName fromDate untilDate =
      db.measurements.filter (tempSelP db roomName fromDate untilDate) :=
  tempSel_aux db roomName fromDate untilDate hndD hndR db.measurements

/-- Auxiliary: a non-empty list has a member. -/
theorem exists_mem_of_not_nil {α : Type} : ∀ {l : List α}, l ≠ [] → ∃ x, x ∈ l
  | [], h => absurd rfl h
  | x :: _, _ => ⟨x, List.mem_cons_self ..⟩

/-- Auxiliary: membership in the first-occurrence deduplication. -/
theorem mem_dedupFirst : ∀ (l seen : List String) (x : String),
    x ∈ dedupFirst seen l ↔ x ∈ l ∧ x ∉ seen := by
  intro l
  induction l with
  | nil => intro seen x; simp [dedupFirst]
  | cons y t ih =>
    intro seen x
    unfold dedupFirst
    by_cases hy : y ∈ seen
    · rw [if_pos hy, ih]
      constructor
      · rintro ⟨hx, hs⟩
        exact ⟨List.mem_cons_of_mem _ hx, hs⟩
      · rintro ⟨hx, hs⟩
        rcases List.mem_cons.mp hx with rfl | hx
        · exact absurd hy hs
        · exact ⟨hx, hs⟩
    · rw [if_neg hy]
      constructor
      · intro hx
        rcases List.mem_cons.mp hx with rfl | hx
        · exact ⟨List.mem_cons_self .., hy⟩
        · obtain ⟨h1, h2⟩ := (ih (y :: seen) x).mp hx
          exact ⟨List.mem_cons_of_mem _ h1,
            fun hs => h2 (List.mem_cons_of_mem _ hs)⟩
      · rintro ⟨hx, hs⟩
        rcases List.mem_cons.mp hx with rfl | hx
        · exact List.mem_cons_self ..
        · by_cases hxy : x = y
          · subst hxy
            exact List.mem_cons_self ..
          · refine List.mem_cons_of_mem _ ((ih (y :: seen) x).mpr ⟨hx, ?_⟩)
            intro hmem
            rcases List.mem_cons.mp hmem with h | h
            · exact hxy h
            · exact hs h

/-- Claim C2 (amended): under relationally-sane storage (unique device
and room ids), `avg_daily_temp` maps a date key to a value exactly when
some measurement qualifies on that date, and the value is the
arithmetic mean over exactly the qualifying measurements: unit `'°C'`,
emitted by a device located in a room with the given name, and raw
timestamp string within the bounds compared lexicographically — so the
whole `from_date` day is included, but on `until_date` only a
timestamp exactly equal to the bound string qualifies; measurements
with a later time-of-day on `until_date` are excluded. -/
theorem c2_amended_membership (db : DB) (roomName : String)
    (fromDate untilDate : Option String) (dt : String) (a : Val)
    (hndD : (db.devices.map (fun d => d.id)).Nodup)
    (hndR : (db.rooms.map (fun r => r.id)).Nodup) :
    (dt, a) ∈ calcAvgTemperaturesInRoom db roomName fromDate untilDate ↔
      (db.measurements.filter
        (fun m => tempSelP db roomName fromDate untilDate m && m.ts.date = dt)) ≠ [] ∧
      a = avgD ((db.measurements.filter
        (fun m => tempSelP db roomName fromDate untilDate m && m.ts.date = dt)).map
          (fun m => m.value)) := by
  have hsel := tempSelected_eq_filter db roomName fromDate untilDate hndD hndR
  have hff : (db.measurements.filter
      (tempSelP db roomName fromDate untilDate)).filter (fun m => m.ts.date = dt) =
      db.measurements.filter
        (fun m => tempSelP db roomName fromDate untilDate m && m.ts.date = dt) := by
    rw [List.filter_filter]
    exact List.filter_congr (fun m _ => Bool.and_comm ..)
  unfold calcAvgTemperaturesInRoom
  rw [hsel, List.mem_map]
  constructor
  · rintro ⟨key, hkey, heq⟩
    rw [Prod.mk.injEq] at heq
    obtain ⟨h1, h2⟩ := heq
    subst h1
    subst h2
    obtain ⟨hin, -⟩ := (mem_dedupFirst _ _ _).mp hkey
    obtain ⟨m, hmf, hmd⟩ := List.mem_map.mp hin
    have hmem : m ∈ db.measurements.filter
        (fun x => tempSelP db roomName fromDate untilDate x && x.ts.date = key) := by
      obtain ⟨hmm, hmp⟩ := List.mem_filter.mp hmf
      refine List.mem_filter.mpr ⟨hmm, ?_⟩
      simp only [Bool.and_eq_true, decide_eq_true_eq]
      exact ⟨hmp, hmd⟩
    exact ⟨List.ne_nil_of_mem hmem, by rw [hff]⟩
  · rintro ⟨hne, rfl⟩
    obtain ⟨m, hm⟩ := exists_mem_of_not_nil hne
    obtain ⟨hmm, hmp⟩ := List.mem_filter.mp hm
    simp only [Bool.and_eq_true, decide_eq_true_eq] at hmp
    refine ⟨dt, ?_, ?_⟩
    · refine (mem_dedupFirst _ _ _).mpr ⟨?_, List.not_mem_nil dt⟩
      refine List.mem_map.mpr ⟨m, ?_, hmp.2⟩
      exact List.mem_filter.mpr ⟨hmm, by simp [hmp.1]⟩
    · rw [hff]

/-- Witness for C2's amended characterization: with unbounded dates the
single `20 °C` measurement of the kitchen yields the mapping entry
`(2024-01-02, 20)`. -/
theorem c2_amended_witness :
    ("2024-01-02", (20 : Val)) ∈ calcAvgTemperaturesInRoom dbTemp "kitchen" none none := by
  refine (c2_amended_membership dbTemp "kitchen" none none "2024-01-02" 20
    (by decide) (by decide)).mpr ⟨by decide, ?_⟩
  norm_num [dbTemp, tempSelP, sqliteLe, charListLt, tsString, avgD]

end PartC
